import Mathlib

/-!
Shallow embedding of `src/output_devices_rppal.rs` (rust_gpiozero rppal output
devices): a polarity-aware GPIO output device (`OutputDeviceR`) and its
lock-wrapped blinking extension (`DigitalOutputDeviceR`).

Modelling conventions:
* The physical pin level is a `Bool` (`true` = electrically high, `Level::High`;
  `false` = low, `Level::Low`).
* Operations that write the pin return, next to the updated state, the list of
  raw pin levels written by the call (in order), so frame and ordering claims
  about pin writes can be stated.
* The background blink thread is modelled as a function of the sequence of
  values the shared `blinking` flag is observed to hold at each load (an
  oracle `flags : Nat → Bool`), and, for runs without concurrent interference,
  as a function of the flag value stored at thread start.
-/

set_option autoImplicit false

namespace RustGpiozero

/-- Source `OutputDeviceR` (src lines 10-15): the rppal `IoPin` is abstracted to its
current electrical level, plus the two polarity fields. -/
structure OutputDeviceR where
  level : Bool
  active_state : Bool
  inactive_state : Bool
  deriving DecidableEq, Repr

namespace OutputDeviceR

/-- Source `OutputDeviceR::new` (src lines 94-106), success path: the pin is acquired
and put into output mode (its electrical level at that point is `l`), and the
polarity fields are initialized to `active_state = true`,
`inactive_state = false`. The fatal acquisition errors panic and return no
device, so they are outside the state model. -/
def new (l : Bool) : OutputDeviceR :=
  { level := l, active_state := true, inactive_state := false }

/-- Source `set_active_high` (src lines 20-28). -/
def set_active_high (d : OutputDeviceR) (value : Bool) : OutputDeviceR :=
  if value then
    { d with active_state := true, inactive_state := false }
  else
    { d with active_state := false, inactive_state := true }

/-- Source `active_high` (src lines 34-36). -/
def active_high (d : OutputDeviceR) : Bool :=
  d.active_state

/-- Source `value_to_state` (src lines 38-44). -/
def value_to_state (d : OutputDeviceR) (value : Bool) : Bool :=
  if value then d.active_state else d.inactive_state

/-- Source `state_to_value` (src lines 64-66). -/
def state_to_value (d : OutputDeviceR) (state : Bool) : Bool :=
  state == d.active_state

/-- Source `write_state` (src lines 68-74): drives the pin high when
`value_to_state value` holds, low otherwise. Also returns the singleton list
of the raw level written. -/
def write_state (d : OutputDeviceR) (value : Bool) : OutputDeviceR × List Bool :=
  if d.value_to_state value then
    ({ d with level := true }, [true])
  else
    ({ d with level := false }, [false])

/-- Source `on` (src lines 47-49); named `on'` because `on` is a Lean keyword. -/
def on' (d : OutputDeviceR) : OutputDeviceR × List Bool :=
  d.write_state true

/-- Source `off` (src lines 52-54). -/
def off (d : OutputDeviceR) : OutputDeviceR × List Bool :=
  d.write_state false

/-- Source `value` (src lines 76-81): reads the pin and maps the level back through
`state_to_value`. -/
def value (d : OutputDeviceR) : Bool :=
  match d.level with
  | false => d.state_to_value false
  | true => d.state_to_value true

/-- Modelled from the spec: `is_active` is produced by the `impl_device!`
macro invocation (src line 108), whose definition is not under `src/`; the
spec (§4.1) states `is_active() -> bool` is a convenience equal to `value()`. -/
def is_active (d : OutputDeviceR) : Bool :=
  d.value

/-- Source `toggle` (src lines 56-62): if active, `off`; else `on`. -/
def toggle (d : OutputDeviceR) : OutputDeviceR × List Bool :=
  if d.is_active then d.off else d.on'

/-- The polarity invariant of the data model (spec §3): the two polarity
fields are a single bit duplicated, `active_state == !inactive_state`. -/
def polarityInv (d : OutputDeviceR) : Prop :=
  d.active_state = !d.inactive_state

instance (d : OutputDeviceR) : Decidable d.polarityInv := by
  unfold polarityInv; infer_instance

end OutputDeviceR

/-- Source `DigitalOutputDeviceR` (src lines 116-120): the `Arc<Mutex<OutputDeviceR>>`
and `Arc<AtomicBool>` are abstracted to their contents; the lock serializes
the operations modelled here, so each method is a function of the whole
state. -/
structure DigitalOutputDeviceR where
  device : OutputDeviceR
  blinking : Bool
  deriving DecidableEq, Repr

namespace DigitalOutputDeviceR

/-- Source `DigitalOutputDeviceR::new` (src lines 227-232): a freshly constructed
inner device (initial pin level `l`) and a cleared blinking flag. -/
def new (l : Bool) : DigitalOutputDeviceR :=
  { device := OutputDeviceR.new l, blinking := false }

/-- Source `stop` (src lines 192-195): stores `false` into the blinking flag, then
drives the raw pin low via `pin.set_low()` — a direct pin write, bypassing
the polarity mapping. Returns the new state and the raw levels written. -/
def stop (s : DigitalOutputDeviceR) : DigitalOutputDeviceR × List Bool :=
  ({ device := { s.device with level := false }, blinking := false }, [false])

/-- Source `DigitalOutputDeviceR::on` (src lines 172-175): `stop()` first, then the
inner device's `on` under the lock; named `on'` as for the inner device. -/
def on' (s : DigitalOutputDeviceR) : DigitalOutputDeviceR × List Bool :=
  let stopped := s.stop
  let inner := stopped.1.device.on'
  ({ stopped.1 with device := inner.1 }, stopped.2 ++ inner.2)

/-- Source `DigitalOutputDeviceR::off` (src lines 177-180): `stop()` first, then the
inner device's `off` under the lock. -/
def off (s : DigitalOutputDeviceR) : DigitalOutputDeviceR × List Bool :=
  let stopped := s.stop
  let inner := stopped.1.device.off
  ({ stopped.1 with device := inner.1 }, stopped.2 ++ inner.2)

/-- Source `DigitalOutputDeviceR::toggle` (src lines 183-185): delegates to the inner
device's `toggle` under the lock, with no `stop()` call. -/
def toggle (s : DigitalOutputDeviceR) : DigitalOutputDeviceR × List Bool :=
  let inner := s.device.toggle
  ({ s with device := inner.1 }, inner.2)

/-- Source `DigitalOutputDeviceR::value` (src lines 188-190). -/
def value (s : DigitalOutputDeviceR) : Bool :=
  s.device.value

/-- Source `DigitalOutputDeviceR::is_active` (src lines 168-170). -/
def is_active (s : DigitalOutputDeviceR) : Bool :=
  s.device.is_active

/-- Source `DigitalOutputDeviceR::set_active_high` (src lines 207-209). -/
def set_active_high (s : DigitalOutputDeviceR) (v : Bool) : DigitalOutputDeviceR :=
  { s with device := s.device.set_active_high v }

end DigitalOutputDeviceR

/-- A device-method event emitted by the blink task: a call to the inner
device's `on` (constructor `on'`, as `on` is a Lean keyword) or `off`. -/
inductive Ev where
  | on'
  | off
  deriving DecidableEq, Repr

/-- Rust's saturating `as u64` cast applied to the float product
`seconds * 1000.0` (src lines 149, 151, 160, 162), on a rational model of the
float value: negative values go to `0`, values at or above `2^64 - 1` to
`2^64 - 1`, the rest truncate toward zero. The cast is total — no value
panics. -/
def castU64 (q : ℚ) : ℕ :=
  if q < 0 then 0 else min q.floor.toNat (2 ^ 64 - 1)

/-- The bounded blink loop (`Some(end)` branch, src lines 142-153), for a run
without concurrent interference on the flag: the loop only ever loads the
flag, so every load returns `flag`, the value stored when the thread started.
Returns the emitted device-method events and the flag value when the task
exits. -/
def blinkLoopFlag (flag : Bool) : ℕ → List Ev × Bool
  | 0 => ([], flag)
  | r + 1 =>
    if !flag then ([Ev.off], flag)
    else
      let rest := blinkLoopFlag flag r
      (Ev.on' :: Ev.off :: rest.1, rest.2)

/-- The spawned blink thread body (src lines 139-152) for `n = Some(end)`,
without concurrent interference: it stores `true` into the flag, then runs
the bounded loop, which loads that stored value at each check. `iters` is the
iteration count of `for _ in 0..end`. -/
def blinkTaskRun (iters : ℕ) : List Ev × Bool :=
  blinkLoopFlag true iters

/-- The bounded blink loop again (src lines 142-153), instrumented with raw
pin levels and time, and with each flag load drawn from an oracle
`flags : ℕ → Bool` (the value the shared flag holds at the top of iteration
`i`), so that a concurrent `stop()` can be modelled. `a` is the level written
by `device.on()` (its `active_state`), `b` the level written by
`device.off()` (its `inactive_state`); `t` is the elapsed time in
milliseconds when the iteration starts, each iteration sleeping
`onMs + offMs`. Each list element is a pin write `(level, time)`. -/
def blinkLoopT (a b : Bool) (flags : ℕ → Bool) (onMs offMs : ℕ) :
    ℕ → ℕ → ℕ → List (Bool × ℕ)
  | _, _, 0 => []
  | i, t, r + 1 =>
    if !(flags i) then [(b, t)]
    else
      (a, t) :: (b, t + onMs) ::
        blinkLoopT a b flags onMs offMs (i + 1) (t + onMs + offMs) r

/-- The unbounded blink loop (`None` branch, src lines 154-163), run with
fuel: `none` when the fuel is exhausted before the flag is observed `false`,
`some events` when the loop terminates within the fuel. -/
def blinkLoopNone (flags : ℕ → Bool) : ℕ → ℕ → Option (List Ev)
  | _, 0 => none
  | i, r + 1 =>
    if !(flags i) then some [Ev.off]
    else (blinkLoopNone flags (i + 1) r).map fun l => Ev.on' :: Ev.off :: l

/-- Flag oracle induced by a `stop()` at time `τ` (milliseconds): the check at
the top of iteration `i` happens at time `i * p` (with `p = onMs + offMs` the
duration of one full iteration), and loads `true` exactly when it happens
before `τ`. -/
def flagsOf (τ p : ℕ) (i : ℕ) : Bool :=
  decide (i * p < τ)

/-- Trace shape: `k` full on/off cycles of timed pin writes starting at time `t`: the shape
of the blink trace before a cancellation is observed. -/
def onOffCycles (a b : Bool) (onMs offMs : ℕ) : ℕ → ℕ → List (Bool × ℕ)
  | _, 0 => []
  | t, k + 1 =>
    (a, t) :: (b, t + onMs) :: onOffCycles a b onMs offMs (t + onMs + offMs) k

/-- Trace shape: `k` full on/off cycles of device-method events: the trace of an
uncancelled bounded blink. -/
def onOffEvCycles : ℕ → List Ev
  | 0 => []
  | k + 1 => Ev.on' :: Ev.off :: onOffEvCycles k

/-- Source `blink` (src lines 130-166): `stop()` first, then the sleep durations are
obtained by the saturating cast from `seconds * 1000.0`, and a background
task is spawned. The spawned task is modelled (for `Some`) by its
no-interference run `blinkTaskRun`; the `None` branch loops until cancelled
and has no terminating no-interference run, so it is modelled as `none`
here (its cancellation behavior is covered by `blinkLoopNone`). -/
def blinkCall (s : DigitalOutputDeviceR) (on_time off_time : ℚ)
    (n : Option ℤ) :
    DigitalOutputDeviceR × List Bool × (ℕ × ℕ) × Option (List Ev × Bool) :=
  let stopped := s.stop
  let onMs := castU64 (on_time * 1000)
  let offMs := castU64 (off_time * 1000)
  let task := match n with
    | some end_ => some (blinkTaskRun end_.toNat)
    | none => none
  (stopped.1, stopped.2, (onMs, offMs), task)

/-- C1: under the polarity invariant `inactive_state = !active_state`, the
mappings `value_to_state` and `state_to_value` are mutual inverses: for every
physical state `s`, `value_to_state (state_to_value s) = s`, and for every
logical value `v`, `state_to_value (value_to_state v) = v`. -/
theorem value_state_mutual_inverses (d : OutputDeviceR)
    (h : d.inactive_state = !d.active_state) (s v : Bool) :
    d.value_to_state (d.state_to_value s) = s ∧
      d.state_to_value (d.value_to_state v) = v := by
  rcases d with ⟨l, a, i⟩
  simp only at h
  subst h
  cases a <;> cases s <;> cases v <;>
    simp [OutputDeviceR.value_to_state, OutputDeviceR.state_to_value]

/-- Witness for C1: the inverse laws evaluated on a concrete active-low device
with pin level high. -/
theorem value_state_mutual_inverses_witness :
    (⟨true, false, true⟩ : OutputDeviceR).inactive_state =
        !(⟨true, false, true⟩ : OutputDeviceR).active_state ∧
      ((⟨true, false, true⟩ : OutputDeviceR).value_to_state
          ((⟨true, false, true⟩ : OutputDeviceR).state_to_value true) = true ∧
        (⟨true, false, true⟩ : OutputDeviceR).state_to_value
          ((⟨true, false, true⟩ : OutputDeviceR).value_to_state false) = false) :=
  ⟨by decide, value_state_mutual_inverses ⟨true, false, true⟩ (by decide) true false⟩

/-- C6: the polarity invariant holds after construction (`new` initializes
`active_state = true`, `inactive_state = false`) and is preserved by every
operation; `set_active_high value` establishes `active_state = value` and
`inactive_state = !value` for every boolean `value`. -/
theorem polarity_invariant_preserved (l v : Bool) (d : OutputDeviceR)
    (hd : d.polarityInv) :
    (OutputDeviceR.new l).active_state = true ∧
      (OutputDeviceR.new l).inactive_state = false ∧
      (OutputDeviceR.new l).polarityInv ∧
      (d.set_active_high v).active_state = v ∧
      (d.set_active_high v).inactive_state = !v ∧
      (d.set_active_high v).polarityInv ∧
      d.on'.1.polarityInv ∧
      d.off.1.polarityInv ∧
      d.toggle.1.polarityInv ∧
      (d.write_state v).1.polarityInv := by
  rcases d with ⟨pl, a, i⟩
  simp only [OutputDeviceR.polarityInv] at hd
  subst hd
  refine ⟨rfl, rfl, rfl, ?_, ?_, ?_, ?_, ?_, ?_, ?_⟩ <;>
    cases v <;> cases i <;> cases pl <;>
      simp [OutputDeviceR.new, OutputDeviceR.set_active_high,
        OutputDeviceR.polarityInv, OutputDeviceR.on', OutputDeviceR.off,
        OutputDeviceR.toggle, OutputDeviceR.write_state,
        OutputDeviceR.value_to_state, OutputDeviceR.is_active,
        OutputDeviceR.value, OutputDeviceR.state_to_value]

/-- Witness for C6: the invariant facts evaluated on the concrete device with
pin level high and active-low polarity, with `l = false` and `v = true`. -/
theorem polarity_invariant_preserved_witness :
    (⟨true, false, true⟩ : OutputDeviceR).polarityInv ∧
      ((⟨true, false, true⟩ : OutputDeviceR).set_active_high true).active_state
          = true ∧
      ((⟨true, false, true⟩ : OutputDeviceR).toggle).1.polarityInv :=
  by
  have h := polarity_invariant_preserved false true ⟨true, false, true⟩
    (by decide)
  exact ⟨by decide, h.2.2.2.1, h.2.2.2.2.2.2.2.2.1⟩

/-- C7: `on` writes the physical level corresponding to `active_state` and
`off` the level corresponding to `inactive_state`; neither changes the
polarity fields, and the written level does not depend on the pin's previous
level, so each is idempotent on the physical level. -/
theorem on_off_write_polarity_levels (d : OutputDeviceR) (l : Bool) :
    d.on'.1.level = d.active_state ∧
      d.on'.2 = [d.active_state] ∧
      d.off.1.level = d.inactive_state ∧
      d.off.2 = [d.inactive_state] ∧
      d.on'.1.active_state = d.active_state ∧
      d.on'.1.inactive_state = d.inactive_state ∧
      d.off.1.active_state = d.active_state ∧
      d.off.1.inactive_state = d.inactive_state ∧
      ({ d with level := l } : OutputDeviceR).on'.1.level = d.on'.1.level ∧
      ({ d with level := l } : OutputDeviceR).off.1.level = d.off.1.level ∧
      d.on'.1.on'.1 = d.on'.1 ∧
      d.off.1.off.1 = d.off.1 := by
  rcases d with ⟨pl, a, i⟩
  cases a <;> cases i <;> cases pl <;> cases l <;>
    simp [OutputDeviceR.on', OutputDeviceR.off, OutputDeviceR.write_state,
      OutputDeviceR.value_to_state]

/-- C8: `set_active_high` never writes the physical pin — the electrical level
after `set_active_high value` equals the level before, for every state and
value — and the round trip `set_active_high true; set_active_high false;
set_active_high true` restores the active/inactive mapping established by its
first call, the raw electrical state unchanged throughout. -/
theorem set_active_high_preserves_level (d : OutputDeviceR) (v : Bool) :
    (d.set_active_high v).level = d.level ∧
      ((d.set_active_high true).set_active_high false).level = d.level ∧
      (((d.set_active_high true).set_active_high false).set_active_high
          true).level = d.level ∧
      ((d.set_active_high true).set_active_high false).set_active_high true
        = d.set_active_high true := by
  cases v <;> simp [OutputDeviceR.set_active_high]

/-- The timed bounded loop, cut at the first `false` flag load: if the loads
at iterations `i, …, i+k-1` return `true` and the load at `i+k` returns
`false` (with at least `k+1` iterations remaining), the trace is exactly `k`
full cycles followed by the single terminal `off` write. -/
theorem blinkLoopT_firstFalse (a b : Bool) (flags : ℕ → Bool)
    (onMs offMs : ℕ) :
    ∀ k i t rem, (∀ j, j < k → flags (i + j) = true) →
      flags (i + k) = false → k < rem →
      blinkLoopT a b flags onMs offMs i t rem =
        onOffCycles a b onMs offMs t k ++ [(b, t + k * (onMs + offMs))] := by
  intro k
  induction k with
  | zero =>
    intro i t rem _ hat hrem
    match rem, hrem with
    | r + 1, _ =>
      simp only [Nat.add_zero] at hat
      simp [blinkLoopT, hat, onOffCycles]
  | succ k ih =>
    intro i t rem hbefore hat hrem
    match rem, hrem with
    | r + 1, hrem =>
      have h0 : flags i = true := by
        have := hbefore 0 (Nat.succ_pos k)
        simpa using this
      have hrec := ih (i + 1) (t + onMs + offMs) r
        (fun j hj => by
          have := hbefore (j + 1) (Nat.succ_lt_succ hj)
          simpa [Nat.add_assoc, Nat.add_comm 1 j] using this)
        (by simpa [Nat.add_assoc, Nat.add_comm 1 k] using hat)
        (Nat.lt_of_succ_lt_succ hrem)
      simp only [blinkLoopT, h0, Bool.not_true, Bool.false_eq_true,
        if_false, hrec, onOffCycles]
      simp [Nat.succ_mul, Nat.mul_succ]
      ring

/-- Count of events in `k` cycles: `k` ons and `k` offs. -/
theorem onOffEvCycles_count (k : ℕ) :
    (onOffEvCycles k).count Ev.on' = k ∧ (onOffEvCycles k).count Ev.off = k := by
  induction k with
  | zero => simp [onOffEvCycles]
  | succ k ih => simp [onOffEvCycles, List.count_cons, ih.1, ih.2]

/-- The no-interference bounded loop with the flag stored `true` emits exactly
its full cycles and leaves the flag `true`. -/
theorem blinkLoopFlag_true (n : ℕ) :
    blinkLoopFlag true n = (onOffEvCycles n, true) := by
  induction n with
  | zero => rfl
  | succ n ih => simp [blinkLoopFlag, onOffEvCycles, ih]

/-- C2: `DigitalOutputDeviceR::on`/`off` each first perform `stop()` — the
blinking flag becomes `false` and the raw pin is driven electrically low,
regardless of polarity and of the previous flag — and only then delegate to
the inner device's `on`/`off`; so `on` writes the low level first and the
active level second (an intermediate pin-low state before the pin is
raised). -/
theorem on_off_stop_first (s : DigitalOutputDeviceR) :
    s.stop.1.blinking = false ∧
      s.stop.1.device.level = false ∧
      s.stop.2 = [false] ∧
      s.on' = ({ s.stop.1 with device := s.stop.1.device.on'.1 },
        s.stop.2 ++ s.stop.1.device.on'.2) ∧
      s.off = ({ s.stop.1 with device := s.stop.1.device.off.1 },
        s.stop.2 ++ s.stop.1.device.off.2) ∧
      s.on'.2 = [false, s.device.active_state] ∧
      s.off.2 = [false, s.device.inactive_state] ∧
      s.on'.1.blinking = false ∧
      s.off.1.blinking = false := by
  rcases s with ⟨⟨pl, a, i⟩, b⟩
  cases a <;> cases i <;>
    simp [DigitalOutputDeviceR.stop, DigitalOutputDeviceR.on',
      DigitalOutputDeviceR.off, OutputDeviceR.on', OutputDeviceR.off,
      OutputDeviceR.write_state, OutputDeviceR.value_to_state]

/-- C5: `DigitalOutputDeviceR::toggle` delegates to the inner device's
`toggle` without calling `stop()`: the blinking flag keeps exactly the value
it held before the call, for every state — asymmetric with `on`/`off`, which
force it to `false`. -/
theorem toggle_preserves_blinking (s : DigitalOutputDeviceR) :
    s.toggle.1.blinking = s.blinking ∧
      s.toggle.1.device = s.device.toggle.1 ∧
      s.toggle.2 = s.device.toggle.2 ∧
      s.on'.1.blinking = false ∧
      s.off.1.blinking = false := by
  refine ⟨rfl, rfl, rfl, rfl, rfl⟩

/-- C3: the blink loop loads the cancellation flag at the top of every
iteration before any pin write of that iteration; a `false` load makes the
task call `off` once and terminate with no further pin write (in both the
bounded and the unbounded branch). Hence, with the flag loads induced by a
`stop()` at time `τ` and one iteration lasting `onMs + offMs`, the task's
terminal `off` write lands at a time in `[τ, τ + onMs + offMs)`, and — for
every polarity `(a, b)` — a low pin write is observed in
`[τ, τ + onMs + offMs]` (`stop()` itself wrote the raw low at `τ`). -/
theorem blink_cancellation_latency (a b : Bool) (flags : ℕ → Bool)
    (onMs offMs i t r k τ rem : ℕ)
    (hflag : flags i = false)
    (hp : 0 < onMs + offMs)
    (hbefore : ∀ j, j < k → flagsOf τ (onMs + offMs) j = true)
    (hat : flagsOf τ (onMs + offMs) k = false)
    (hrem : k < rem) :
    blinkLoopT a b flags onMs offMs i t (r + 1) = [(b, t)] ∧
      blinkLoopNone flags i (r + 1) = some [Ev.off] ∧
      blinkLoopT a b (flagsOf τ (onMs + offMs)) onMs offMs 0 0 rem =
        onOffCycles a b onMs offMs 0 k ++ [(b, k * (onMs + offMs))] ∧
      τ ≤ k * (onMs + offMs) ∧
      k * (onMs + offMs) < τ + (onMs + offMs) ∧
      ∃ e ∈ ((false, τ) ::
          blinkLoopT a b (flagsOf τ (onMs + offMs)) onMs offMs 0 0 rem),
        e.1 = false ∧ τ ≤ e.2 ∧ e.2 ≤ τ + (onMs + offMs) := by
  have hτle : τ ≤ k * (onMs + offMs) := by
    have := hat
    simp only [flagsOf, decide_eq_false_iff_not, not_lt] at this
    exact this
  refine ⟨by simp [blinkLoopT, hflag], by simp [blinkLoopNone, hflag],
    ?_, hτle, ?_, ?_⟩
  · have h := blinkLoopT_firstFalse a b (flagsOf τ (onMs + offMs)) onMs offMs
      k 0 0 rem (fun j hj => by simpa using hbefore j hj)
      (by simpa using hat) hrem
    simpa using h
  · cases k with
    | zero =>
      simpa using Nat.lt_of_lt_of_le hp (Nat.le_add_left (onMs + offMs) τ)
    | succ j =>
      have hj : flagsOf τ (onMs + offMs) j = true := hbefore j (Nat.lt_succ_self j)
      simp only [flagsOf, decide_eq_true_eq] at hj
      calc (j + 1) * (onMs + offMs) = j * (onMs + offMs) + (onMs + offMs) := by
            ring
        _ < τ + (onMs + offMs) := Nat.add_lt_add_right hj _
  · exact ⟨(false, τ), List.mem_cons_self _ _, rfl, Nat.le_refl τ,
      Nat.le_add_right τ _⟩

/-- Witness for C3: a `stop()` at `τ = 7` ms against a blink with
`onMs = 3`, `offMs = 1`: the loads at iterations 0 and 1 (times 0 and 4) are
`true`, the load at iteration 2 (time 8) is `false`, and the terminal `off`
write at 8 ms lies in `[7, 7 + 4)`. -/
theorem blink_cancellation_latency_witness :
    (fun _ : ℕ => false) 0 = false ∧
      blinkLoopT true false (flagsOf 7 (3 + 1)) 3 1 0 0 5 =
        onOffCycles true false 3 1 0 2 ++ [(false, 2 * (3 + 1))] ∧
      7 ≤ 2 * (3 + 1) ∧ 2 * (3 + 1) < 7 + (3 + 1) := by
  have h := blink_cancellation_latency true false (fun _ => false) 3 1 0 0 0 2
    7 5 rfl (by decide) (by decide) (by decide) (by decide)
  exact ⟨rfl, h.2.2.1, h.2.2.2.1, h.2.2.2.2.1⟩

/-- C4: for every positive `n`, an uncancelled `blink(_, _, Some(n))` task
(every flag load returns the `true` stored at thread start) performs exactly
`n` on/off cycles — `n` `on` calls and `n` `off` calls, alternating, starting
with `on` — and exits with the blinking flag still `true`: the thread body
contains no final flag reset. -/
theorem bounded_blink_exact_cycles (n : ℕ) (_hn : 0 < n) :
    blinkTaskRun n = (onOffEvCycles n, true) ∧
      (blinkTaskRun n).1.count Ev.on' = n ∧
      (blinkTaskRun n).1.count Ev.off = n ∧
      (blinkTaskRun n).2 = true := by
  have h : blinkTaskRun n = (onOffEvCycles n, true) := blinkLoopFlag_true n
  refine ⟨h, ?_, ?_, by simp [h]⟩
  · simp [h, (onOffEvCycles_count n).1]
  · simp [h, (onOffEvCycles_count n).2]

/-- Witness for C4: three uninterrupted cycles. -/
theorem bounded_blink_exact_cycles_witness :
    0 < 3 ∧ blinkTaskRun 3 = (onOffEvCycles 3, true) ∧
      (blinkTaskRun 3).1.count Ev.on' = 3 :=
  ⟨by decide, (bounded_blink_exact_cycles 3 (by decide)).1,
    (bounded_blink_exact_cycles 3 (by decide)).2.1⟩

/-- C9: the millisecond conversion `(seconds * 1000.0) as u64` is total — in
particular every nonpositive duration converts to a `0` ms sleep — and
`blink(on_time = -1.0, off_time = 0.01, n = Some(1))` runs to completion
without panicking: the call stops (one raw low write), computes sleep
durations `(0, 10)` ms, and the task performs one on/off cycle and exits
with the flag `true`. -/
theorem blink_negative_duration_total (q : ℚ) (hq : q ≤ 0)
    (s : DigitalOutputDeviceR) :
    castU64 (q * 1000) = 0 ∧
      blinkCall s (-1) (1 / 100) (some 1) =
        (s.stop.1, [false], (0, 10), some ([Ev.on', Ev.off], true)) := by
  have hmul : q * 1000 ≤ 0 := by nlinarith
  have hzero : castU64 0 = 0 := by
    unfold castU64
    rw [if_neg (by norm_num : ¬(0 : ℚ) < 0)]
    have hfl : (0 : ℚ).floor = 0 := by rw [Rat.floor_def']; simp
    rw [hfl]
    simp
  constructor
  · rcases lt_or_eq_of_le hmul with hlt | heq
    · simp [castU64, hlt]
    · rw [heq, hzero]
  · have c1 : castU64 ((-1 : ℚ) * 1000) = 0 := by
      rw [show ((-1 : ℚ) * 1000) = -1000 by norm_num]
      simp [castU64, show (-1000 : ℚ) < 0 by norm_num]
    have c2 : castU64 ((1 / 100 : ℚ) * 1000) = 10 := by
      rw [show ((1 / 100 : ℚ) * 1000) = 10 by norm_num]
      unfold castU64
      rw [if_neg (by norm_num : ¬(10 : ℚ) < 0)]
      have hfl : (10 : ℚ).floor = 10 := by rw [Rat.floor_def']; simp
      rw [hfl]
      decide
    simp only [blinkCall, blinkTaskRun]
    rw [c1, c2]
    rfl

/-- Witness for C9: the conversion and the full call evaluated at
`q = -2` on a concrete active-high device that was blinking. -/
theorem blink_negative_duration_total_witness :
    castU64 ((-2 : ℚ) * 1000) = 0 ∧
      blinkCall ⟨⟨true, true, false⟩, true⟩ (-1) (1 / 100) (some 1) =
        ((⟨⟨true, true, false⟩, true⟩ : DigitalOutputDeviceR).stop.1,
          [false], (0, 10), some ([Ev.on', Ev.off], true)) :=
  ⟨(blink_negative_duration_total (-2) (by norm_num)
      ⟨⟨true, true, false⟩, true⟩).1,
    (blink_negative_duration_total (-2) (by norm_num)
      ⟨⟨true, true, false⟩, true⟩).2⟩

/-- C10: for every `k ≤ 0`, `blink(_, _, Some(k))` spawns a task whose
`for _ in 0..k` loop body never runs: the task stores `true` into the flag
and exits with zero on/off cycles and zero pin writes of its own, the only
pin write of the whole call being the raw low forced by the initial
`stop()`; the flag is left `true` with no task alive. -/
theorem blink_nonpositive_count (k : ℤ) (hk : k ≤ 0)
    (s : DigitalOutputDeviceR) (t1 t2 : ℚ) :
    k.toNat = 0 ∧
      blinkTaskRun k.toNat = ([], true) ∧
      blinkCall s t1 t2 (some k) =
        (s.stop.1, [false], (castU64 (t1 * 1000), castU64 (t2 * 1000)),
          some ([], true)) := by
  have h0 : k.toNat = 0 := Int.toNat_of_nonpos hk
  refine ⟨h0, ?_, ?_⟩
  · simp [h0, blinkTaskRun, blinkLoopFlag]
  · simp [blinkCall, h0, blinkTaskRun, blinkLoopFlag,
      DigitalOutputDeviceR.stop]

/-- Witness for C10: `k = -3` on a concrete device. -/
theorem blink_nonpositive_count_witness :
    (-3 : ℤ).toNat = 0 ∧ blinkTaskRun (-3 : ℤ).toNat = ([], true) :=
  ⟨(blink_nonpositive_count (-3) (by decide) ⟨⟨true, true, false⟩, true⟩
      2 3).1,
    (blink_nonpositive_count (-3) (by decide) ⟨⟨true, true, false⟩, true⟩
      2 3).2.1⟩

end RustGpiozero
